import Mathlib

/-!
# Verification of the `@for` tracking demo

Shallow embedding of the single-component Angular demo (`src/unnamed/part_000`):
a list of `{id, value}` items is mutated every 3 seconds (increment or shuffle),
rendered through a keyed `@for` block whose key is chosen by `trackByFn`
according to the active tracking strategy, and reset whenever a strategy toggles.

JavaScript object identity is modelled by tagging every allocated item object
with an allocation number `ref`; machine numbers are modelled as `Int`
(the demo only ever adds 1 to small values, so no overflow concerns arise).
-/

/-- An item as displayed: `{ id: number, value: number }`. -/
structure Item where
  id : Int
  value : Int
deriving DecidableEq, Repr

/-- A heap-allocated item object: the payload `val` together with the
allocation identity `ref` that models the JavaScript object reference.
Objects in the demo are never mutated in place, so an `Obj` is immutable. -/
structure Obj where
  ref : Nat
  val : Item
deriving DecidableEq, Repr

/-- The three tracking strategies of the demo
(`'index' | 'identity' | 'id'`, source lines 222-224). -/
inductive TrackingStrategy where
  | index
  | identity
  | id
deriving DecidableEq, Repr

/-- The two change strategies (`'increment' | 'shuffle'`, source lines 228-230). -/
inductive ChangeStrategy where
  | increment
  | shuffle
deriving DecidableEq, Repr

/-- The value returned by `trackByFn` and compared (by `===`) by the host
reconciler: a position (`$index` branch), a numeric id (`item.id` branch), or
an object reference (`item` itself under identity tracking). -/
inductive Key where
  | idx : Nat → Key
  | kid : Int → Key
  | ref : Obj → Key
deriving DecidableEq, Repr

namespace App

/-- `trackByFn = (index, item) => switch (this.trackingStrategy()) {...}`
(source lines 296-305), with the component's current tracking strategy made
an explicit argument. Pure and total, as in the source (the arrow function
only reads the strategy signal and its two arguments). -/
def trackByFn (s : TrackingStrategy) (index : Nat) (item : Obj) : Key :=
  match s with
  | .index => .idx index
  | .id => .kid item.val.id
  | .identity => .ref item

/-- Keys of a snapshot: `trackByFn($index, item)` for each item at its
position, as evaluated by the `@for` block (source line 115). -/
def keysOfAux (s : TrackingStrategy) (i : Nat) : List Obj → List Key
  | [] => []
  | o :: rest => trackByFn s i o :: keysOfAux s (i + 1) rest

/-- Keys of a snapshot starting at position 0. -/
def keysOf (s : TrackingStrategy) (arr : List Obj) : List Key :=
  keysOfAux s 0 arr

/-- The initial ten items, `Array.from({length: 10}).map((_, i) => ({id: i, value: i}))`
(source lines 216-219), with allocation refs 0..9. -/
def initialArr : List Obj :=
  (List.range 10).map fun i => ⟨i, ⟨i, i⟩⟩

/-- One increment-strategy tick:
`this.arr().map(item => ({id: item.id + 1, value: item.value + 1}))`
(source line 259). Each object literal is a fresh allocation, modelled by
threading the allocation counter `n`: the result pairs the new snapshot with
the next free allocation number. -/
def incrementTick (arr : List Obj) (n : Nat) : List Obj × Nat :=
  match arr with
  | [] => ([], n)
  | o :: rest =>
    let p := incrementTick rest (n + 1)
    (⟨n, ⟨o.val.id + 1, o.val.value + 1⟩⟩ :: p.1, p.2)

/-- One step of the oracle-driven insertion used to model
`Array.prototype.sort` with the comparator `(a, b) => 0.5 - Math.random()`:
the comparator ignores its arguments and is negative or positive with equal
probability, so each comparison outcome is supplied by the next oracle
boolean (`true` = "place before the element compared against"). Returns the
list with `x` inserted and the unconsumed oracle suffix. -/
def insertR (x : Obj) : List Obj → List Bool → List Obj × List Bool
  | [], bits => ([x], bits)
  | y :: ys, [] => (x :: y :: ys, [])
  | y :: ys, b :: bits =>
    if b then (x :: y :: ys, bits)
    else
      let p := insertR x ys bits
      (y :: p.1, p.2)

/-- The engine's comparison sort under a comparator that ignores its
arguments, modelled as insertion sort with each comparison answered by the
oracle. Any comparison sort is a deterministic function of the comparator
outcomes once the comparator ignores the elements; insertion sort is the
algorithm engines use on short runs. Returns the sorted list and the
unconsumed oracle suffix. -/
def sortR : List Obj → List Bool → List Obj × List Bool
  | [], bits => ([], bits)
  | x :: xs, bits =>
    let p := sortR xs bits
    insertR x p.1 p.2

/-- One shuffle-strategy tick:
`[...this.arr()].sort((a, b) => 0.5 - Math.random())` (source lines 261-262).
The spread copies the array, so the same `Obj` instances are re-ordered; the
ordering is determined by the oracle of comparator outcomes. -/
def shuffleTick (oracle : List Bool) (arr : List Obj) : List Obj :=
  (sortR arr oracle).1

/-- One mutation tick of the `setInterval` body (source lines 257-264):
dispatch on the current change strategy. The oracle is consumed only by the
shuffle branch; the allocation counter only by the increment branch. -/
def tick (s : ChangeStrategy) (oracle : List Bool) (arr : List Obj) (n : Nat) :
    List Obj × Nat :=
  match s with
  | .increment => incrementTick arr n
  | .shuffle => (shuffleTick oracle arr, n)

/-- A run of successive mutation ticks, each with its own strategy reading and
oracle. -/
def runTicks : List (ChangeStrategy × List Bool) → List Obj → Nat → List Obj × Nat
  | [], arr, n => (arr, n)
  | (s, oracle) :: rest, arr, n =>
    let p := tick s oracle arr n
    runTicks rest p.1 p.2

/-- A run of shuffle ticks only (strategy held at `shuffle`). -/
def shuffleTicks : List (List Bool) → List Obj → List Obj
  | [], arr => arr
  | oracle :: rest, arr => shuffleTicks rest (shuffleTick oracle arr)

/-- `(this.params.get('tracking') as ...) || 'index'` (source lines 222-224):
`URLSearchParams.get` yields the string or `null`; `||` replaces only the
falsy values `null` and `""` by the default, any other string passes through
unchanged (the `as` cast has no runtime effect). -/
def initTrackingStrategy (p : Option String) : String :=
  match p with
  | none => "index"
  | some s => if s = "" then "index" else s

/-- `(this.params.get('dom') as ...) || 'stateless'` (source lines 225-227). -/
def initDomStrategy (p : Option String) : String :=
  match p with
  | none => "stateless"
  | some s => if s = "" then "stateless" else s

/-- `(this.params.get('change') as ...) || 'increment'` (source lines 228-230). -/
def initChangeStrategy (p : Option String) : String :=
  match p with
  | none => "increment"
  | some s => if s = "" then "increment" else s

/-- The fresh ten-item snapshot published by `reset`'s deferred callback,
`Array.from({length: 10}).map((_, i) => ({id: i, value: i}))`
(source line 289), at payload level. -/
def freshTen : List Item :=
  (List.range 10).map fun i => ⟨i, i⟩

/-- Observable events of the reset protocol: snapshot publications
(`this.arr.set(...)`, at payload level), the wholesale registry clear
(`this.elementRegistry.elements.clear()`), and the completion of the next
paint (the point after which `afterNextRender` callbacks run). -/
inductive Ev where
  | publishArr : List Item → Ev
  | clearRegistry : Ev
  | paint : Ev
deriving DecidableEq, Repr

/-- The event trace of `reset()` (source lines 284-294). The method body runs
synchronously: it publishes the empty snapshot, registers an
`afterNextRender` callback, and clears the registry. The registered callback
runs only after the next paint completes and then publishes the fresh
ten-item snapshot. -/
def resetTrace : List Ev :=
  [.publishArr [], .clearRegistry, .paint, .publishArr freshTen]

/-- Actions a component can register to run at view teardown (Angular:
`ngOnDestroy` or a `DestroyRef` callback). The only one relevant here is
cancelling the mutation interval. -/
inductive TeardownAction where
  | clearMutationInterval
deriving DecidableEq, Repr

/-- The teardown actions the `App` class registers: none. The class declares
no `ngOnDestroy`, registers nothing with `DestroyRef`, and discards the
handle returned by `setInterval` (source line 257), so no code path can ever
cancel the interval. -/
def teardownActions : List TeardownAction := []

/-- Whether the mutation interval is still active, as a function of
construction and teardown: `setInterval` in the constructor activates it, and
teardown deactivates it only if a registered teardown action cancels it. -/
def intervalActiveAfterTeardown : Bool :=
  !(teardownActions.contains .clearMutationInterval)

end App

/-- Keys present in both the previous and the current cycle: the reconciler
reuses an existing node for each of them (§6 contract, clause 1). -/
def reusedKeys (old new : List Key) : List Key :=
  old.filter (fun k => decide (k ∈ new))

/-- Keys present only in the previous cycle: the reconciler destroys their
nodes (§6 contract, clause 2). -/
def destroyedKeys (old new : List Key) : List Key :=
  old.filter (fun k => decide (k ∉ new))

/-- Keys present only in the current cycle: the reconciler creates nodes for
them (§6 contract, clause 3). -/
def createdKeys (old new : List Key) : List Key :=
  new.filter (fun k => decide (k ∉ old))

namespace App

/-- Inserting with the oracle produces a list with the inserted element added:
the result is a permutation of `x :: l`. -/
theorem insertR_perm (x : Obj) :
    ∀ (l : List Obj) (bits : List Bool), ((insertR x l bits).1).Perm (x :: l)
  | [], _ => by simp [insertR]
  | y :: ys, [] => by simp [insertR]
  | y :: ys, b :: bits => by
    cases b
    · have ih := insertR_perm x ys bits
      simpa [insertR] using (ih.cons y).trans (List.Perm.swap x y ys)
    · simp [insertR]

/-- The modelled random sort returns a permutation of its input,
for every oracle. -/
theorem sortR_perm :
    ∀ (l : List Obj) (bits : List Bool), ((sortR l bits).1).Perm l
  | [], _ => List.Perm.refl _
  | x :: xs, bits => by
    have ih := sortR_perm xs bits
    have h := insertR_perm x (sortR xs bits).1 (sortR xs bits).2
    simpa [sortR] using h.trans (ih.cons x)

/-- One shuffle tick permutes the snapshot: same `Obj` instances. -/
theorem shuffleTick_perm (oracle : List Bool) (arr : List Obj) :
    (shuffleTick oracle arr).Perm arr :=
  sortR_perm arr oracle

/-- Any number of shuffle ticks permutes the snapshot. -/
theorem shuffleTicks_perm :
    ∀ (oracles : List (List Bool))(arr : List Obj), (shuffleTicks oracles arr).Perm arr
  | [], arr => List.Perm.refl arr
  | oracle :: rest, arr =>
    (shuffleTicks_perm rest (shuffleTick oracle arr)).trans (shuffleTick_perm oracle arr)

/-- The increment tick maps each payload to `{id: id + 1, value: value + 1}`,
keeping order. -/
theorem incrementTick_map :
    ∀ (arr : List Obj) (n : Nat),
      ((incrementTick arr n).1).map Obj.val
        = arr.map fun o => ⟨o.val.id + 1, o.val.value + 1⟩
  | [], _ => rfl
  | o :: rest, n => by
    simp [incrementTick, incrementTick_map rest (n + 1)]

/-- The increment tick preserves length. -/
theorem incrementTick_length :
    ∀ (arr : List Obj) (n : Nat), ((incrementTick arr n).1).length = arr.length
  | [], _ => rfl
  | o :: rest, n => by simp [incrementTick, incrementTick_length rest (n + 1)]

/-- Every object allocated by the increment tick has an allocation ref at or
beyond the tick's allocation counter. -/
theorem incrementTick_ref_ge :
    ∀ (arr : List Obj) (n : Nat), ∀ o' ∈ (incrementTick arr n).1, n ≤ o'.ref
  | [], _ => by simp [incrementTick]
  | o :: rest, n => by
    intro o' ho'
    simp only [incrementTick, List.mem_cons] at ho'
    rcases ho' with rfl | ho'
    · exact Nat.le_refl n
    · exact Nat.le_of_succ_le (incrementTick_ref_ge rest (n + 1) o' ho')

/-- Under `id` tracking the key list ignores positions: it is the map of
`Key.kid ∘ id` over the snapshot. -/
theorem keysOfAux_id :
    ∀ (i : Nat) (arr : List Obj),
      keysOfAux .id i arr = arr.map fun o => Key.kid o.val.id
  | _, [] => rfl
  | i, o :: rest => by simp [keysOfAux, trackByFn, keysOfAux_id (i + 1) rest]

/-- Under `identity` tracking the key list ignores positions: it is the map
of `Key.ref` over the snapshot. -/
theorem keysOfAux_identity :
    ∀ (i : Nat) (arr : List Obj),
      keysOfAux .identity i arr = arr.map Key.ref
  | _, [] => rfl
  | i, o :: rest => by simp [keysOfAux, trackByFn, keysOfAux_identity (i + 1) rest]

/-- There is one key per item. -/
theorem keysOfAux_length :
    ∀ (s : TrackingStrategy) (i : Nat) (arr : List Obj),
      (keysOfAux s i arr).length = arr.length
  | _, _, [] => rfl
  | s, i, o :: rest => by simp [keysOfAux, keysOfAux_length s (i + 1) rest]

end App

namespace App

/-- `keysOf` under `id` tracking, position-free form. -/
theorem keysOf_id_eq (arr : List Obj) :
    keysOf .id arr = arr.map fun o => Key.kid o.val.id :=
  keysOfAux_id 0 arr

/-- `keysOf` under `identity` tracking, position-free form. -/
theorem keysOf_identity_eq (arr : List Obj) :
    keysOf .identity arr = arr.map Key.ref :=
  keysOfAux_identity 0 arr

/-- A single tick preserves the snapshot length, whatever the strategy. -/
theorem tick_length (s : ChangeStrategy) (oracle : List Bool) (arr : List Obj)
    (n : Nat) : ((tick s oracle arr n).1).length = arr.length := by
  cases s
  · exact incrementTick_length arr n
  · exact (shuffleTick_perm oracle arr).length_eq

/-- A run of ticks preserves the snapshot length. -/
theorem runTicks_length :
    ∀ (steps : List (ChangeStrategy × List Bool)) (arr : List Obj) (n : Nat),
      ((runTicks steps arr n).1).length = arr.length
  | [], _, _ => rfl
  | (s, oracle) :: rest, arr, n => by
    simp only [runTicks]
    rw [runTicks_length rest _ _, tick_length]

end App

/-- If the new key list is a permutation of the old one, the reconciler
creates and destroys nothing. -/
theorem perm_keys_created_destroyed_nil {old fresh : List Key}
    (h : fresh.Perm old) :
    createdKeys old fresh = [] ∧ destroyedKeys old fresh = [] := by
  constructor
  · rw [createdKeys, List.filter_eq_nil_iff]
    intro k hk
    simp [h.mem_iff.mp hk]
  · rw [destroyedKeys, List.filter_eq_nil_iff]
    intro k hk
    simp [h.mem_iff.mpr hk]

/-- C1: under the increment change strategy with the id tracking strategy,
starting from the initial snapshot `[{id:0,value:0}..{id:9,value:9}]`, one
mutation tick produces `[{id:1,value:1}..{id:10,value:10}]`; the key list
before the tick is `kid 0..kid 9` and after is `kid 1..kid 10`, so under the
§6 reconciler contract exactly the keys 1..9 are reused, key 0 is destroyed
and key 10 is created — exactly one node is created. -/
theorem increment_id_one_tick_reconciled :
    (App.incrementTick App.initialArr 10).1.map Obj.val
        = (List.range 10).map (fun i => ⟨(i : Int) + 1, (i : Int) + 1⟩) ∧
    App.keysOf .id App.initialArr = (List.range 10).map (fun i => Key.kid i) ∧
    App.keysOf .id (App.incrementTick App.initialArr 10).1
        = (List.range 10).map (fun i => Key.kid ((i : Int) + 1)) ∧
    reusedKeys (App.keysOf .id App.initialArr)
        (App.keysOf .id (App.incrementTick App.initialArr 10).1)
        = (List.range 9).map (fun i => Key.kid ((i : Int) + 1)) ∧
    destroyedKeys (App.keysOf .id App.initialArr)
        (App.keysOf .id (App.incrementTick App.initialArr 10).1) = [Key.kid 0] ∧
    createdKeys (App.keysOf .id App.initialArr)
        (App.keysOf .id (App.incrementTick App.initialArr 10).1) = [Key.kid 10] ∧
    (createdKeys (App.keysOf .id App.initialArr)
        (App.keysOf .id (App.incrementTick App.initialArr 10).1)).length = 1 := by
  decide

/-- C5: the `App` class registers no teardown action at all — it has no
`ngOnDestroy`, registers nothing with `DestroyRef`, and discards the
`setInterval` handle — so the mutation interval is still active after the
owning view is torn down, contradicting the requirement that no further
mutation tick ever occurs after teardown. -/
theorem interval_active_after_teardown :
    App.teardownActions = [] ∧ App.intervalActiveAfterTeardown = true := by
  decide

/-- C6: an increment-strategy tick maps each item `{id, value}` to a fresh
item `{id: id + 1, value: value + 1}`, preserving order (the payload list is
exactly the mapped list) and length. -/
theorem increment_tick_maps_items :
    ∀ (arr : List Obj) (n : Nat),
      ((App.incrementTick arr n).1).map Obj.val
          = arr.map (fun o => ⟨o.val.id + 1, o.val.value + 1⟩) ∧
      ((App.incrementTick arr n).1).length = arr.length :=
  fun arr n => ⟨App.incrementTick_map arr n, App.incrementTick_length arr n⟩

/-- C7: the key selector `trackByFn` — a pure, deterministic Lean function by
construction, as its source only reads the strategy and its two arguments —
returns the position under `index` tracking, `item.id` under `id` tracking,
and the item reference itself under `identity` tracking. -/
theorem trackByFn_strategy_values :
    ∀ (i : Nat) (o : Obj),
      App.trackByFn .index i o = Key.idx i ∧
      App.trackByFn .id i o = Key.kid o.val.id ∧
      App.trackByFn .identity i o = Key.ref o :=
  fun _ _ => ⟨rfl, rfl, rfl⟩

/-- C9: every mutation tick, under either change strategy, preserves the
snapshot length, and every run of ticks that starts from the initial
ten-item snapshot keeps the length at exactly 10. -/
theorem tick_preserves_length_always_ten :
    (∀ (s : ChangeStrategy) (oracle : List Bool) (arr : List Obj) (n : Nat),
        ((App.tick s oracle arr n).1).length = arr.length) ∧
    (∀ steps : List (ChangeStrategy × List Bool),
        ((App.runTicks steps App.initialArr 10).1).length = 10) :=
  ⟨App.tick_length, fun steps => by rw [App.runTicks_length]; decide⟩

/-- C2 counterexample: the shuffle tick is a deterministic function of the
comparator outcomes, and a function of finitely many fair coin outcomes gives
every output a dyadic probability, so no oracle length makes the ordering of
the ten-item initial snapshot exactly uniform: `1 / 10!` is not dyadic. The
claim that a shuffle tick publishes a uniformly-randomized permutation is
therefore false. -/
theorem shuffle_sort_not_uniform :
    ¬ ∃ L : Nat, ∀ out : List Obj, out.Perm App.initialArr →
      ((Finset.univ : Finset (Fin L → Bool)).filter fun o =>
          App.shuffleTick (List.ofFn o) App.initialArr = out).card * 3628800
        = 2 ^ L := by
  rintro ⟨L, h⟩
  have h1 := h App.initialArr (List.Perm.refl _)
  have h3 : (3 : Nat) ∣ 2 ^ L := by
    rw [← h1]
    exact Dvd.dvd.mul_left (by norm_num) _
  have h2 := Nat.prime_three.dvd_of_dvd_pow h3
  norm_num at h2

/-- C2 amended: for every current snapshot and every sequence of comparator
outcomes, a shuffle tick publishes a permutation of the existing items — the
same `Obj` instances, hence the same ids and values, in some order, with the
same length, and no item created or mutated in place (the ordering is not
uniformly distributed; see the counterexample). -/
theorem shuffle_tick_permutes_items :
    ∀ (oracle : List Bool) (arr : List Obj),
      (App.shuffleTick oracle arr).Perm arr ∧
      (App.shuffleTick oracle arr).length = arr.length ∧
      ((App.shuffleTick oracle arr).map Obj.val).Perm (arr.map Obj.val) :=
  fun oracle arr =>
    ⟨App.shuffleTick_perm oracle arr, (App.shuffleTick_perm oracle arr).length_eq,
     (App.shuffleTick_perm oracle arr).map Obj.val⟩

/-- C3 counterexample: in the event trace of `reset()` the registry clear is
the second event (position 1) while the deferred fresh-snapshot publish is
the last (position 3), so the claim that the registry clear (step 3) occurs
after the deferred publish (step 2) is false. -/
theorem reset_claimed_order_false :
    App.resetTrace.indexOf App.Ev.clearRegistry = 1 ∧
    App.resetTrace.indexOf (App.Ev.publishArr App.freshTen) = 3 ∧
    ¬ App.resetTrace.indexOf (App.Ev.publishArr App.freshTen)
        < App.resetTrace.indexOf App.Ev.clearRegistry := by
  decide

/-- C3 amended: `reset()` (1) first publishes the empty snapshot, (2) only
after the next paint completes publishes the fresh ten-item snapshot with
`id == value == index` for every index below 10, and (3) clears the Identity
Registry synchronously — after step 1 but before the paint, hence before
step 2's deferred publish, not after it. -/
theorem reset_trace_order :
    App.resetTrace.head? = some (App.Ev.publishArr []) ∧
    App.resetTrace.indexOf App.Ev.paint
        < App.resetTrace.indexOf (App.Ev.publishArr App.freshTen) ∧
    App.freshTen.length = 10 ∧
    ((List.range 10).all fun i => App.freshTen.getD i ⟨0, 0⟩ == ⟨i, i⟩) = true ∧
    App.resetTrace.indexOf (App.Ev.publishArr [])
        < App.resetTrace.indexOf App.Ev.clearRegistry ∧
    App.resetTrace.indexOf App.Ev.clearRegistry
        < App.resetTrace.indexOf App.Ev.paint := by
  decide

/-- C4 counterexample: the unknown query-parameter value `"foo"` — a member
of none of the three strategy enumerations — is kept as a literal string by
all three startup selectors instead of falling back to the default, so the
claim that any unknown value falls back to the default is false. -/
theorem unknown_query_param_kept_literal :
    App.initTrackingStrategy (some "foo") = "foo" ∧
    App.initDomStrategy (some "foo") = "foo" ∧
    App.initChangeStrategy (some "foo") = "foo" ∧
    "foo" ≠ "index" ∧ "foo" ≠ "identity" ∧ "foo" ≠ "id" ∧
    "foo" ≠ "stateless" ∧ "foo" ≠ "stateful" ∧
    "foo" ≠ "increment" ∧ "foo" ≠ "shuffle" := by
  decide

/-- C4 amended: at startup each of the three strategy selections falls back
to its default — `index`, `stateless`, `increment` — exactly when the query
parameter is missing or the empty string; any other value, known or unknown,
is accepted as a literal string with no fallback. -/
theorem query_param_fallback_only_falsy :
    ∀ p : Option String,
      ((p = none ∨ p = some "") →
        App.initTrackingStrategy p = "index" ∧
        App.initDomStrategy p = "stateless" ∧
        App.initChangeStrategy p = "increment") ∧
      (∀ s : String, s ≠ "" →
        App.initTrackingStrategy (some s) = s ∧
        App.initDomStrategy (some s) = s ∧
        App.initChangeStrategy (some s) = s) := by
  intro p
  constructor
  · rintro (rfl | rfl) <;>
      simp [App.initTrackingStrategy, App.initDomStrategy, App.initChangeStrategy]
  · intro s hs
    simp [App.initTrackingStrategy, App.initDomStrategy, App.initChangeStrategy, hs]

/-- C4 witness: the amended fallback behaviour at concrete inputs — a missing
tracking parameter gives `index`, and the explicit value `shuffle` for the
change parameter is kept. -/
theorem query_param_fallback_witness :
    App.initTrackingStrategy none = "index" ∧
    App.initChangeStrategy (some "shuffle") = "shuffle" :=
  ⟨((query_param_fallback_only_falsy none).1 (Or.inl rfl)).1,
   ((query_param_fallback_only_falsy (some "shuffle")).2 "shuffle" (by decide)).2.2⟩

/-- C8: under the shuffle change strategy with the `id` or the `identity`
tracking strategy, the key multiset is invariant under any number of
mutation ticks (the key list after the ticks is a permutation of the key
list before), and on each single tick the §6 reconciler creates no node and
destroys no node. -/
theorem shuffle_key_multiset_invariant :
    ∀ (oracles : List (List Bool)) (arr : List Obj),
      (App.keysOf .id (App.shuffleTicks oracles arr)).Perm
          (App.keysOf .id arr) ∧
      (App.keysOf .identity (App.shuffleTicks oracles arr)).Perm
          (App.keysOf .identity arr) ∧
      ∀ oracle : List Bool,
        createdKeys (App.keysOf .id arr)
            (App.keysOf .id (App.shuffleTick oracle arr)) = [] ∧
        destroyedKeys (App.keysOf .id arr)
            (App.keysOf .id (App.shuffleTick oracle arr)) = [] ∧
        createdKeys (App.keysOf .identity arr)
            (App.keysOf .identity (App.shuffleTick oracle arr)) = [] ∧
        destroyedKeys (App.keysOf .identity arr)
            (App.keysOf .identity (App.shuffleTick oracle arr)) = [] := by
  intro oracles arr
  have hp := App.shuffleTicks_perm oracles arr
  refine ⟨?_, ?_, ?_⟩
  · rw [App.keysOf_id_eq, App.keysOf_id_eq]
    exact hp.map _
  · rw [App.keysOf_identity_eq, App.keysOf_identity_eq]
    exact hp.map _
  · intro oracle
    have h1 : (App.keysOf .id (App.shuffleTick oracle arr)).Perm
        (App.keysOf .id arr) := by
      rw [App.keysOf_id_eq, App.keysOf_id_eq]
      exact (App.shuffleTick_perm oracle arr).map _
    have h2 : (App.keysOf .identity (App.shuffleTick oracle arr)).Perm
        (App.keysOf .identity arr) := by
      rw [App.keysOf_identity_eq, App.keysOf_identity_eq]
      exact (App.shuffleTick_perm oracle arr).map _
    obtain ⟨c1, d1⟩ := perm_keys_created_destroyed_nil h1
    obtain ⟨c2, d2⟩ := perm_keys_created_destroyed_nil h2
    exact ⟨c1, d1, c2, d2⟩

/-- C10: under the identity tracking strategy with the increment change
strategy, a tick allocates only fresh objects, so whenever every object of
the current snapshot was allocated before the tick's allocation counter, the
identity key lists of the two consecutive snapshots are disjoint: every old
key is destroyed, every new key is created, and when the snapshot has ten
items the tick destroys exactly ten nodes and creates exactly ten nodes. -/
theorem identity_increment_disjoint_keys :
    ∀ (arr : List Obj) (n : Nat), (∀ o ∈ arr, o.ref < n) →
      (∀ k ∈ App.keysOf .identity arr,
          k ∉ App.keysOf .identity (App.incrementTick arr n).1) ∧
      destroyedKeys (App.keysOf .identity arr)
          (App.keysOf .identity (App.incrementTick arr n).1)
        = App.keysOf .identity arr ∧
      createdKeys (App.keysOf .identity arr)
          (App.keysOf .identity (App.incrementTick arr n).1)
        = App.keysOf .identity (App.incrementTick arr n).1 ∧
      (arr.length = 10 →
        (destroyedKeys (App.keysOf .identity arr)
            (App.keysOf .identity (App.incrementTick arr n).1)).length = 10 ∧
        (createdKeys (App.keysOf .identity arr)
            (App.keysOf .identity (App.incrementTick arr n).1)).length = 10) := by
  intro arr n h
  have hdisj : ∀ k ∈ App.keysOf .identity arr,
      k ∉ App.keysOf .identity (App.incrementTick arr n).1 := by
    rw [App.keysOf_identity_eq, App.keysOf_identity_eq]
    intro k hk hk'
    obtain ⟨o, ho, rfl⟩ := List.mem_map.mp hk
    obtain ⟨o', ho', he⟩ := List.mem_map.mp hk'
    have hoo : o' = o := by injection he
    subst hoo
    exact absurd (h o' ho)
      (Nat.not_lt.mpr (App.incrementTick_ref_ge arr n o' ho'))
  have hdisj' : ∀ k ∈ App.keysOf .identity (App.incrementTick arr n).1,
      k ∉ App.keysOf .identity arr := by
    intro k hk hk'
    exact hdisj k hk' hk
  have hdes : destroyedKeys (App.keysOf .identity arr)
      (App.keysOf .identity (App.incrementTick arr n).1)
      = App.keysOf .identity arr := by
    rw [destroyedKeys, List.filter_eq_self]
    intro k hk
    simp [hdisj k hk]
  have hcre : createdKeys (App.keysOf .identity arr)
      (App.keysOf .identity (App.incrementTick arr n).1)
      = App.keysOf .identity (App.incrementTick arr n).1 := by
    rw [createdKeys, List.filter_eq_self]
    intro k hk
    simp [hdisj' k hk]
  refine ⟨hdisj, hdes, hcre, ?_⟩
  intro hlen
  constructor
  · rw [hdes, App.keysOf, App.keysOfAux_length, hlen]
  · rw [hcre, App.keysOf, App.keysOfAux_length, App.incrementTick_length, hlen]

/-- C10 witness: at the initial ten-item snapshot, with the allocation
counter at 10, an identity-tracked increment tick destroys ten nodes and
creates ten nodes. -/
theorem identity_increment_disjoint_keys_witness :
    (destroyedKeys (App.keysOf .identity App.initialArr)
        (App.keysOf .identity (App.incrementTick App.initialArr 10).1)).length
      = 10 ∧
    (createdKeys (App.keysOf .identity App.initialArr)
        (App.keysOf .identity (App.incrementTick App.initialArr 10).1)).length
      = 10 :=
  (identity_increment_disjoint_keys App.initialArr 10 (by decide)).2.2.2
    (by decide)
